import Mathlib

/-! Verification of the field normalization and validation engine of the
th-backend-assessment repository (extract.py, evaluate.py, schemas.py).

Modelling conventions (shallow embedding of the Python source):
* Python floats are modelled as `PyFloat`: an exact rational for finite
  values plus the non-finite values `inf`, `ninf`, `nan`.  IEEE-754 binary
  representation error and overflow-to-infinity of astronomically large
  decimal literals are not modelled; no theorem below depends on them.
  `round(f, 2)` is modelled with a half-up tie-break on exact rationals;
  the source's tie-break (CPython banker's rounding on doubles) differs
  only on exact ties, which no theorem below exercises.
* Dynamically typed Python values (the untrusted draft fields, JSON
  values) are modelled by `Val` (null / bool / number / string).
* A Python function that can raise for some inputs is modelled in
  `Except PyErr`; a `try/except` in the source becomes a `match` on that
  result.  `PyErr` distinguishes the exception classes the source code
  can raise or catch.
* `str.lower` / `str.upper` / `str.strip` and the `\w`, `\s`, `\d`
  regex character classes are modelled on ASCII; the Unicode extensions
  of the Python originals are not exercised by any theorem.
-/

/-- A CPython float value: finite (exact rational), infinities, or NaN. -/
inductive PyFloat where
  | finite (q : ℚ)
  | inf
  | ninf
  | nan
deriving DecidableEq, Repr

/-- A dynamically typed Python/JSON value, as used for the untrusted
draft fields arriving from the extraction oracle. -/
inductive Val where
  | null
  | bool (b : Bool)
  | num (f : PyFloat)
  | str (s : String)
deriving DecidableEq, Repr

/-- Exception classes raised or caught by the modelled source code. -/
inductive PyErr where
  | attributeError
  | typeError
  | valueError
  | validationError
deriving DecidableEq, Repr

/-- Python truthiness of a float (`bool(f)`): zero is falsy, every other
float (including `nan` and the infinities) is truthy. -/
def PyFloat.truthy : PyFloat → Bool
  | .finite q => decide (q ≠ 0)
  | _ => true

/-- Python truthiness of a `Val` (`bool(v)`). -/
def Val.truthy : Val → Bool
  | .null => false
  | .bool b => b
  | .num f => f.truthy
  | .str s => decide (s ≠ "")

/-- The characters matched by Python's `str.strip()` and the regex class
`\s` (ASCII part). -/
def pyIsSpace (c : Char) : Bool :=
  c = ' ' || c = '\t' || c = '\n' || c = '\r' || c = '\x0b' || c = '\x0c'

/-- Model of `str.strip()` on a character list: drop whitespace on both ends. -/
def stripChars (cs : List Char) : List Char :=
  ((cs.dropWhile pyIsSpace).reverse.dropWhile pyIsSpace).reverse

/-- Model of `str.strip()` (ASCII model). -/
def pyStrip (s : String) : String :=
  String.mk (stripChars s.toList)

/-- Model of `str.upper()` (ASCII model). -/
def pyUpper (s : String) : String :=
  String.mk (s.toList.map Char.toUpper)

/-- Model of `str.lower()` (ASCII model). -/
def pyLower (s : String) : String :=
  String.mk (s.toList.map Char.toLower)

/-- Substring occurrence, i.e. Python's `needle in haystack` on strings
and `re.search` of a pattern with no metacharacters. -/
def containsSub (needle : List Char) : List Char → Bool
  | [] => needle.isEmpty
  | c :: rest => needle.isPrefixOf (c :: rest) || containsSub needle rest

/-- A regex word character (`\w`, ASCII part). -/
def isWordChar (c : Char) : Bool :=
  c.isAlphanum || c = '_'

/-- After a word-boundary-delimited match, the rest of the text must not
begin with a word character. -/
def boundaryAfter : List Char → Bool
  | [] => true
  | c :: _ => !isWordChar c

/-- Scanner for `re.search(r"\bw\b", text)`: `prev` records whether the
character just before the current position is a word character. -/
def wordMatchAux (w : List Char) : Bool → List Char → Bool
  | prev, [] => !prev && w.isPrefixOf [] && boundaryAfter ([] : List Char)
  | prev, c :: rest =>
      (!prev && w.isPrefixOf (c :: rest) && boundaryAfter (List.drop w.length (c :: rest)))
      || wordMatchAux w (isWordChar c) rest

/-- Model of `re.search(r"\b" + w + r"\b", text) is not None` for a word `w` made
of word characters. -/
def wordMatch (w : List Char) (text : List Char) : Bool :=
  wordMatchAux w false text

/-- After the literal `class`, skip `\s*` and require a digit (`\d`). -/
def classDigitAfter (cs : List Char) : Bool :=
  match cs.dropWhile pyIsSpace with
  | [] => false
  | c :: _ => c.isDigit

/-- Scanner for `re.search(r"\bclass\s*\d", text)`. -/
def classMatchAux : Bool → List Char → Bool
  | _, [] => false
  | prev, c :: rest =>
      (!prev && ('c' :: 'l' :: 'a' :: 's' :: 's' :: []).isPrefixOf (c :: rest)
        && classDigitAfter (List.drop 5 (c :: rest)))
      || classMatchAux (isWordChar c) rest

/-- Model of `re.search(r"\bclass\s*\d", text) is not None`. -/
def classMatch (text : List Char) : Bool :=
  classMatchAux false text

/-- Value of a list of decimal digit characters. -/
def digitsToNat (cs : List Char) : ℕ :=
  cs.foldl (fun a c => 10 * a + (c.toNat - '0'.toNat)) 0

/-- Optional exponent part of a float literal: empty, or `e[+-]?digits`
with nothing after it.  Returns the mantissa scaled by the exponent. -/
def parseExp (m : ℚ) : List Char → Option ℚ
  | [] => some m
  | 'e' :: r =>
      let (eneg, r2) : Bool × List Char :=
        match r with
        | '+' :: t => (false, t)
        | '-' :: t => (true, t)
        | t => (false, t)
      let ds := r2.takeWhile Char.isDigit
      let rest := r2.dropWhile Char.isDigit
      if ds.isEmpty || !rest.isEmpty then none
      else if eneg then some (m / 10 ^ digitsToNat ds)
      else some (m * 10 ^ digitsToNat ds)
  | _ => none

/-- Unsigned decimal float literal `digits[.digits][exp]` (at least one
digit in the mantissa), already lower-cased. -/
def parseUFloat (cs : List Char) : Option ℚ :=
  let ip := cs.takeWhile Char.isDigit
  let rest := cs.dropWhile Char.isDigit
  match rest with
  | '.' :: r2 =>
      let fp := r2.takeWhile Char.isDigit
      let r3 := r2.dropWhile Char.isDigit
      if ip.isEmpty && fp.isEmpty then none
      else parseExp ((digitsToNat ip : ℚ) + (digitsToNat fp : ℚ) / 10 ^ fp.length) r3
  | r2 => if ip.isEmpty then none else parseExp (digitsToNat ip : ℚ) r2

/-- CPython `float(s)` on a string: strip whitespace, optional sign,
then `inf`/`infinity`/`nan` (case-insensitive) or a decimal literal.
(Underscore digit separators and Unicode digits are not modelled.) -/
def parseFloat (s : String) : Option PyFloat :=
  let cs := stripChars (s.toList.map Char.toLower)
  let (neg, cs2) : Bool × List Char :=
    match cs with
    | '+' :: t => (false, t)
    | '-' :: t => (true, t)
    | t => (false, t)
  if cs2 = "inf".toList || cs2 = "infinity".toList then
    some (if neg then PyFloat.ninf else PyFloat.inf)
  else if cs2 = "nan".toList then some PyFloat.nan
  else (parseUFloat cs2).map (fun q => PyFloat.finite (if neg then -q else q))

/-- CPython `float(v)` on a dynamically typed value: numbers pass
through, booleans become 0/1, strings are parsed (`ValueError` on
failure), `None` raises `TypeError`. -/
def py_float : Val → Except PyErr PyFloat
  | .num f => .ok f
  | .bool b => .ok (.finite (if b then 1 else 0))
  | .str s =>
      match parseFloat s with
      | some f => .ok f
      | none => .error .valueError
  | .null => .error .typeError

/-- Round a rational to the nearest integer, half-up tie-break (see the
header note on CPython's tie-break), via the computable `Rat.floor`. -/
def roundZ (q : ℚ) : ℤ :=
  Rat.floor (q + 1 / 2)

/-- Round an exact rational to 2 decimal places. -/
def roundQ2 (q : ℚ) : ℚ :=
  (roundZ (q * 100) : ℤ) / 100

/-- CPython `round(f, 2)`: finite values are rounded, `inf`/`nan` pass
through unchanged. -/
def pyRound2 : PyFloat → PyFloat
  | .finite q => .finite (roundQ2 q)
  | f => f

/-- CPython `==` on floats: exact on finite values, `inf = inf`,
`nan` unequal to everything including itself. -/
def pyFloatEq : PyFloat → PyFloat → Bool
  | .finite a, .finite b => decide (a = b)
  | .inf, .inf => true
  | .ninf, .ninf => true
  | _, _ => false

/-- Generic first-match association-list lookup, modelling lookups in a
Python `dict` with string keys (insertion-ordered, distinct keys). -/
def alookup {α : Type} : List (String × α) → String → Option α
  | [], _ => none
  | (k, v) :: rest, key => if k = key then some v else alookup rest key

/-- One raw entry of the port reference file.  Per the declared external
interface the fields are strings when present; `entry.get(...)` of a
missing field is `none`. -/
structure PortEntry where
  code : Option String
  name : Option String
deriving DecidableEq, Repr

/-- The `if not code or not name: continue` filter of
`load_port_reference`: an entry survives exactly when both fields are
present and non-empty (Python truthiness). -/
def entryOk (e : PortEntry) : Option (String × String) :=
  match e.code, e.name with
  | some c, some n => if c ≠ "" ∧ n ≠ "" then some (c, n) else none
  | _, _ => none

/-- Model of `temp_map[code].append(name)` with `dict` insertion-order semantics:
append to the existing key's list, or add a new key at the end. -/
def addName (tm : List (String × List String)) (c n : String) : List (String × List String) :=
  match tm with
  | [] => [(c, [n])]
  | (c', ns) :: rest => if c' = c then (c', ns ++ [n]) :: rest else (c', ns) :: addName rest c n

/-- One iteration of the first loop of `load_port_reference`: skip a
falsy-field entry, otherwise append its name under its code. -/
def temp_step (tm : List (String × List String)) (e : PortEntry) : List (String × List String) :=
  match entryOk e with
  | some (c, n) => addName tm c n
  | none => tm

/-- The first pass of `load_port_reference`: group surviving names by
code, preserving first-seen order of codes and of names per code. -/
def buildTemp (entries : List PortEntry) : List (String × List String) :=
  entries.foldl temp_step []

/-- Model of `"Chennai" in n and "Bangalore" not in n` (case-sensitive substring
tests, as in the source). -/
def chennaiPick (n : String) : Bool :=
  containsSub "Chennai".toList n.toList && !containsSub "Bangalore".toList n.toList

/-- The selection logic of `load_port_reference`: default to the first
name seen for a code; for the known-corrupt code `INMAA`, prefer the
first name containing `Chennai` but not `Bangalore`, falling back to the
first name when none matches. -/
def select_name (code : String) (names : List String) : String :=
  let d := names.headD ""
  if code = "INMAA" then
    match names.find? chennaiPick with
    | some n => n
    | none => d
  else d

/-- Model of `load_port_reference` (extract.py lines 27-77), minus the file I/O:
build the grouped `temp_map`, then collapse each code's name list via
`select_name`.  (The `FileNotFoundError` branch returning an empty map
is the out-of-scope I/O layer.) -/
def load_port_reference (entries : List PortEntry) : List (String × String) :=
  (buildTemp entries).map (fun p => (p.1, select_name p.1 p.2))

/-- The fixed incoterm vocabulary of `normalize_incoterm`. -/
def valid_incoterms : List String :=
  ["FOB", "CIF", "CFR", "EXW", "DDP", "DAP", "FCA", "CPT", "CIP", "DPU"]

/-- Model of `normalize_incoterm` (extract.py lines 79-90).  `if not val` uses
Python truthiness; `val.strip().upper()` raises `AttributeError` when a
truthy non-string reaches it. -/
def normalize_incoterm (val : Val) : Except PyErr String :=
  if val.truthy = false then .ok "FOB"
  else
    match val with
    | .str s =>
        let u := pyUpper (pyStrip s)
        if u ∈ valid_incoterms then .ok u else .ok "FOB"
    | _ => .error .attributeError

/-- Model of `code and code.startswith("IN")` for an optional string code. -/
def optStartsIN : Option String → Bool
  | some s => decide (s ≠ "") && (("IN".toList).isPrefixOf s.toList)
  | none => false

/-- Model of `determine_product_line` (extract.py lines 92-105): destination
first, then origin, else `None`. -/
def determine_product_line (origin_code dest_code : Option String) : Option String :=
  if optStartsIN dest_code then some "pl_sea_import_lcl"
  else if optStartsIN origin_code then some "pl_sea_export_lcl"
  else none

/-- The negative dangerous-goods patterns (literal substrings,
extract.py line 118), tested against the lower-cased text. -/
def negAny (t : List Char) : Bool :=
  containsSub "non-hazardous".toList t || containsSub "non-dg".toList t
    || containsSub "not dangerous".toList t || containsSub "non hazardous".toList t

/-- The positive dangerous-goods patterns (extract.py lines 125-132):
whole words `dg`, `imo`, `imdg`, substrings `dangerous`, `hazardous`,
and `class` followed by optional whitespace and a digit. -/
def posAny (t : List Char) : Bool :=
  wordMatch "dg".toList t || containsSub "dangerous".toList t
    || containsSub "hazardous".toList t || wordMatch "imo".toList t
    || wordMatch "imdg".toList t || classMatch t

/-- Model of `check_dangerous_goods` (extract.py lines 107-137): lower-case the
text, return `false` on the first negative pattern, else `true` on any
positive pattern, else `false`.  The upstream `extracted_bool` hint
(passed as the raw draft value at the call site) is never consulted. -/
def check_dangerous_goods (email_text : String) (extracted_bool : Val) : Bool :=
  let t := (pyLower email_text).toList
  if negAny t then false
  else if posAny t then true
  else false

/-- Model of `round_metric` (extract.py lines 139-146): `None` maps to `None`;
otherwise `float(val)` with `ValueError`/`TypeError` caught to `None`,
then `round(f, 2)`. -/
def round_metric (val : Val) : Option PyFloat :=
  match val with
  | .null => none
  | v =>
      match py_float v with
      | .ok f => some (pyRound2 f)
      | .error _ => none

/-- The port-code validation block of `process_email` (lines 190-198):
a truthy code is uppercased (`AttributeError` for a truthy non-string)
and nulled when absent from the reference map; a falsy code is left
unchanged. -/
def validate_code (pmap : List (String × String)) (v : Val) : Except PyErr Val :=
  if v.truthy then
    match v with
    | .str s =>
        let u := pyUpper s
        if (alookup pmap u).isSome then .ok (.str u) else .ok .null
    | _ => .error .attributeError
  else .ok v

/-- Model of `port_map.get(code) if code else None` (lines 201-202).  After
validation a truthy code is always a string; `dict.get` with any other
key on a string-keyed map returns `None`. -/
def port_name (pmap : List (String × String)) (code : Val) : Option String :=
  if code.truthy then
    match code with
    | .str s => alookup pmap s
    | _ => none
  else none

/-- View of a validated code as the optional string handed to
`determine_product_line`; falsy non-string values behave exactly like
`None` there (only truthiness and a prefix test are consulted). -/
def toOptStr : Val → Option String
  | .str s => some s
  | _ => none

/-- Pydantic validation of a required `str` field (schemas.py `id`):
strings pass, everything else is a `ValidationError`. -/
def validate_str : Val → Except PyErr String
  | .str s => .ok s
  | _ => .error .validationError

/-- Pydantic validation of an `Optional[str]` field (schemas.py):
`None` and strings pass, everything else is a `ValidationError` (lax
mode does not coerce numbers or booleans to `str`). -/
def validate_opt_str : Val → Except PyErr (Option String)
  | .null => .ok none
  | .str s => .ok (some s)
  | _ => .error .validationError

/-- The canonical shipment record, the shape of
`ShipmentDetails.model_dump()` (schemas.py): `id` is a required string,
`incoterm` and `is_dangerous` are always set by the assembler, the
remaining fields are optional. -/
structure ShipmentRecord where
  id : String
  product_line : Option String
  origin_port_code : Option String
  origin_port_name : Option String
  destination_port_code : Option String
  destination_port_name : Option String
  incoterm : String
  cargo_weight_kg : Option PyFloat
  cargo_cbm : Option PyFloat
  is_dangerous : Bool
deriving DecidableEq, Repr

/-- The raw draft produced by the extraction oracle (`data` in
`process_email` after `json.loads`, `{}` on oracle failure): every
field is an arbitrary value, `data.get` of a missing key is `null`. -/
structure RawDraft where
  product_line : Val
  origin_port_code : Val
  destination_port_code : Val
  incoterm : Val
  cargo_weight_kg : Val
  cargo_cbm : Val
  is_dangerous : Val
deriving DecidableEq, Repr

/-- The draft of an entirely failed oracle call (`data = {}`). -/
def emptyDraft : RawDraft :=
  ⟨.null, .null, .null, .null, .null, .null, .null⟩

/-- Lines 204-208 of extract.py: the product line derived from the two
validated codes, falling back to the raw draft's own (truthy) value,
else `None`. -/
def draft_product_line (data : RawDraft) (origin_code dest_code : Val) : Val :=
  match determine_product_line (toOptStr origin_code) (toOptStr dest_code) with
  | some s => .str s
  | none => if data.product_line.truthy then data.product_line else .null

/-- The post-processing and validation part of `process_email`
(extract.py lines 179-234), from the raw draft `data`, the source text
`full_text` and the reference map, to the pydantic-validated record.
Each `match` on an `Except` propagates an exception of the
corresponding source statement; the final four validations model the
`ShipmentDetails(...)` constructor (only `id`, `product_line` and the
two codes can fail validation — the remaining fields are handed over
already well-typed). -/
def process_email (email_id : Val) (data : RawDraft) (full_text : String)
    (pmap : List (String × String)) : Except PyErr ShipmentRecord :=
  match validate_code pmap data.origin_port_code with
  | .error e => .error e
  | .ok origin_code =>
    match validate_code pmap data.destination_port_code with
    | .error e => .error e
    | .ok dest_code =>
      let origin_name := port_name pmap origin_code
      let dest_name := port_name pmap dest_code
      let prod_line := draft_product_line data origin_code dest_code
      match normalize_incoterm data.incoterm with
      | .error e => .error e
      | .ok incoterm =>
        let is_dg := check_dangerous_goods full_text data.is_dangerous
        let weight := round_metric data.cargo_weight_kg
        let cbm := round_metric data.cargo_cbm
        match validate_str email_id with
        | .error e => .error e
        | .ok idv =>
          match validate_opt_str prod_line with
          | .error e => .error e
          | .ok plv =>
            match validate_opt_str origin_code with
            | .error e => .error e
            | .ok ocv =>
              match validate_opt_str dest_code with
              | .error e => .error e
              | .ok dcv =>
                .ok { id := idv, product_line := plv,
                      origin_port_code := ocv, origin_port_name := origin_name,
                      destination_port_code := dcv, destination_port_name := dest_name,
                      incoterm := incoterm, cargo_weight_kg := weight,
                      cargo_cbm := cbm, is_dangerous := is_dg }

/-- Model of `str(v)` as used by `normalize_string` in evaluate.py.  Only the
string, boolean and `None` renderings are relied on by any theorem
below; the rendering of numbers (CPython's shortest-roundtrip float
repr) is modelled by an arbitrary deterministic stand-in, since
`normalize_string` is only ever applied by the theorems to equal
number values on both sides, where any function agrees with itself. -/
def strVal : Val → String
  | .null => "None"
  | .bool b => if b then "True" else "False"
  | .str s => s
  | .num (.finite q) => toString q
  | .num .inf => "inf"
  | .num .ninf => "-inf"
  | .num .nan => "nan"

/-- Model of `normalize_string` (evaluate.py lines 13-16): `None` maps to the
literal `"null"` (before any uppercasing), every other value to its
trimmed upper-cased string form. -/
def normalize_string (s : Val) : String :=
  match s with
  | .null => "null"
  | v => pyUpper (pyStrip (strVal v))

/-- Model of `compare_floats` (evaluate.py lines 18-26): both `None` equal, one
`None` unequal, otherwise `float(...)` on both (parse failure caught to
`False`) and exact comparison of the 2-decimal roundings. -/
def compare_floats (val1 val2 : Val) : Bool :=
  match val1, val2 with
  | .null, .null => true
  | .null, _ => false
  | _, .null => false
  | v1, v2 =>
      match py_float v1, py_float v2 with
      | .ok f1, .ok f2 => pyFloatEq (pyRound2 f1) (pyRound2 f2)
      | _, _ => false

/-- Model of `compare_values` (evaluate.py lines 28-35): float comparison for the
two numeric fields, normalized-string equality for everything else. -/
def compare_values (field : String) (val1 val2 : Val) : Bool :=
  if field = "cargo_weight_kg" ∨ field = "cargo_cbm" then compare_floats val1 val2
  else normalize_string val1 == normalize_string val2

/-- The fixed evaluation field list of `evaluate_accuracy`. -/
def fields_to_evaluate : List String :=
  ["product_line", "origin_port_code", "origin_port_name",
   "destination_port_code", "destination_port_name", "incoterm",
   "cargo_weight_kg", "cargo_cbm", "is_dangerous"]

/-- A present optional string as a JSON value. -/
def optStrVal : Option String → Val
  | none => .null
  | some s => .str s

/-- A present optional float as a JSON value. -/
def optFloatVal : Option PyFloat → Val
  | none => .null
  | some f => .num f

/-- Model of `record.get(field)` on the serialized (`model_dump`) form of a
shipment record; unknown fields give `None`. -/
def get_field (r : ShipmentRecord) (f : String) : Val :=
  if f = "id" then .str r.id
  else if f = "product_line" then optStrVal r.product_line
  else if f = "origin_port_code" then optStrVal r.origin_port_code
  else if f = "origin_port_name" then optStrVal r.origin_port_name
  else if f = "destination_port_code" then optStrVal r.destination_port_code
  else if f = "destination_port_name" then optStrVal r.destination_port_name
  else if f = "incoterm" then .str r.incoterm
  else if f = "cargo_weight_kg" then optFloatVal r.cargo_weight_kg
  else if f = "cargo_cbm" then optFloatVal r.cargo_cbm
  else if f = "is_dangerous" then .bool r.is_dangerous
  else .null

/-- Model of `dict[k] = v` with insertion-order semantics: overwriting keeps the
key's original position, a new key goes to the end. -/
def dict_insert (m : List (String × ShipmentRecord)) (k : String) (v : ShipmentRecord) :
    List (String × ShipmentRecord) :=
  match m with
  | [] => [(k, v)]
  | (k', v') :: rest => if k' = k then (k, v) :: rest else (k', v') :: dict_insert rest k v

/-- Model of `{item['id']: item for item in records}`: id-keyed map,
last-write-wins on duplicate ids. -/
def build_by_id (rs : List ShipmentRecord) : List (String × ShipmentRecord) :=
  rs.foldl (fun m r => dict_insert m r.id r) []

/-- The inner field loop of `evaluate_accuracy` for one
(ground truth, prediction) pair, accumulating (correct, total). -/
def count_fields (truth pred : ShipmentRecord) (acc : ℕ × ℕ) : ℕ × ℕ :=
  fields_to_evaluate.foldl
    (fun ct f =>
      if compare_values f (get_field truth f) (get_field pred f) then (ct.1 + 1, ct.2 + 1)
      else (ct.1, ct.2 + 1))
    acc

/-- The counting core of `evaluate_accuracy` (evaluate.py lines 37-97):
iterate the ground-truth map, skip ids missing from the outputs map,
and accumulate global (correct, total) field counts. -/
def evaluate_accuracy (outputs ground_truth : List ShipmentRecord) : ℕ × ℕ :=
  let outMap := build_by_id outputs
  (build_by_id ground_truth).foldl
    (fun ct p =>
      match alookup outMap p.1 with
      | none => ct
      | some pred => count_fields p.2 pred ct)
    (0, 0)

/-- Model of `overall_acc = correct / total * 100 if total > 0 else 0.0`. -/
def overall_accuracy (ct : ℕ × ℕ) : ℚ :=
  if ct.2 = 0 then 0 else (ct.1 : ℚ) / (ct.2 : ℚ) * 100

/-! Section: Helper lemmas -/

theorem roundZ_eq_round (q : ℚ) : roundZ q = round q := by
  rw [round_eq]
  rfl

theorem roundQ2_idem (q : ℚ) : roundQ2 (roundQ2 q) = roundQ2 q := by
  unfold roundQ2
  simp only [roundZ_eq_round]
  have h : ((round (q * 100) : ℤ) : ℚ) / 100 * 100 = ((round (q * 100) : ℤ) : ℚ) :=
    div_mul_cancel₀ _ (by norm_num)
  rw [h, round_intCast]

/-! Section: C5: the dangerous-goods classifier ignores the upstream hint -/

/-- C5: for every text and any two upstream hint values (including
absent), `check_dangerous_goods` returns the same boolean — the result
depends only on the text. -/
theorem dangerous_goods_ignores_hint (t : String) (h1 h2 : Val) :
    check_dangerous_goods t h1 = check_dangerous_goods t h2 := rfl

/-! Section: C4: negative patterns win, and no pattern means `false` -/

/-- C4: `check_dangerous_goods` checks the negative patterns before any
positive pattern: whenever a negative pattern matches the lower-cased
text the result is `false`, even if a positive pattern also matches;
and when neither a negative nor a positive pattern matches, the result
is `false`. -/
theorem dangerous_goods_negatives_win (t : String) (h : Val) :
    (negAny (pyLower t).toList = true → check_dangerous_goods t h = false)
    ∧ (negAny (pyLower t).toList = false → posAny (pyLower t).toList = false →
        check_dangerous_goods t h = false) := by
  constructor
  · intro hn
    simp only [check_dangerous_goods]
    rw [hn]
    rfl
  · intro hn hp
    simp only [check_dangerous_goods]
    rw [hn, hp]
    rfl

theorem dangerous_goods_negatives_win_witness :
    negAny (pyLower "non-hazardous goods, IMO Class 3").toList = true
    ∧ posAny (pyLower "non-hazardous goods, IMO Class 3").toList = true
    ∧ check_dangerous_goods "non-hazardous goods, IMO Class 3" Val.null = false
    ∧ negAny (pyLower "general cargo").toList = false
    ∧ posAny (pyLower "general cargo").toList = false
    ∧ check_dangerous_goods "general cargo" Val.null = false :=
  ⟨by decide, by decide,
   (dangerous_goods_negatives_win "non-hazardous goods, IMO Class 3" Val.null).1 (by decide),
   by decide, by decide,
   (dangerous_goods_negatives_win "general cargo" Val.null).2 (by decide) (by decide)⟩

/-! Section: C6: product line derivation -/

/-- The claim's reading of `code and code.startswith("IN")`: the code is
present and starts with `IN` (equivalent, since the empty string starts
with nothing). -/
def specStartsIN : Option String → Bool
  | some s => ("IN".toList).isPrefixOf s.toList
  | none => false

/-- C6: `determine_product_line` returns `pl_sea_import_lcl` when the
destination code is present and starts with `IN`, otherwise
`pl_sea_export_lcl` when the origin code is present and starts with
`IN`, otherwise `none`; the destination rule is evaluated first, so two
`IN` codes yield the import line. -/
theorem determine_product_line_spec (o d : Option String) :
    determine_product_line o d =
      if specStartsIN d then some "pl_sea_import_lcl"
      else if specStartsIN o then some "pl_sea_export_lcl"
      else none := by
  have key : ∀ x : Option String, optStartsIN x = specStartsIN x := by
    intro x
    cases x with
    | none => rfl
    | some s =>
        by_cases hs : s = ""
        · subst hs; decide
        · simp [optStartsIN, specStartsIN, hs]
  simp only [determine_product_line, key]

/-! Section: C8: the numeric coercer returns absent or a finite 2-decimal value -/

/-- Raw values whose numeric parse does not produce a non-finite float:
everything except number values that are already non-finite and strings
spelling `nan`/`inf`/`infinity`. -/
def finite_input : Val → Bool
  | .str s =>
      match parseFloat s with
      | some .inf => false
      | some .ninf => false
      | some .nan => false
      | _ => true
  | .num (.finite _) => true
  | .num _ => false
  | _ => true

/-- C8 counterexample: the claim says `round_metric` never yields NaN,
but the string `"nan"` is accepted by the numeric parse (`float("nan")`)
and its NaN propagates through `round(f, 2)` into the record. -/
theorem round_metric_nan_cex : round_metric (Val.str "nan") = some PyFloat.nan := by decide

/-- C8 (amended): for every raw cargo value whose numeric parse does not
produce a non-finite float, `round_metric` returns either `none` or a
finite number that is exactly a 2-decimal value (a fixpoint of rounding
to 2 places). -/
theorem round_metric_finite_or_none (v : Val) (h : finite_input v = true) :
    round_metric v = none
    ∨ ∃ q : ℚ, round_metric v = some (PyFloat.finite q) ∧ roundQ2 q = q := by
  cases v with
  | null => exact Or.inl rfl
  | bool b =>
      refine Or.inr ⟨roundQ2 (if b then 1 else 0), ?_, roundQ2_idem _⟩
      cases b <;> rfl
  | num f =>
      cases f with
      | finite q => exact Or.inr ⟨roundQ2 q, rfl, roundQ2_idem q⟩
      | inf => simp [finite_input] at h
      | ninf => simp [finite_input] at h
      | nan => simp [finite_input] at h
  | str s =>
      simp only [finite_input] at h
      cases hp : parseFloat s with
      | none => simp [round_metric, py_float, hp]
      | some f =>
          cases f with
          | finite q =>
              refine Or.inr ⟨roundQ2 q, ?_, roundQ2_idem q⟩
              simp [round_metric, py_float, hp, pyRound2]
          | inf => rw [hp] at h; simp at h
          | ninf => rw [hp] at h; simp at h
          | nan => rw [hp] at h; simp at h

theorem round_metric_finite_or_none_witness :
    finite_input (Val.str "2.341") = true
    ∧ (round_metric (Val.str "2.341") = none
       ∨ ∃ q : ℚ, round_metric (Val.str "2.341") = some (PyFloat.finite q) ∧ roundQ2 q = q) :=
  ⟨by decide, round_metric_finite_or_none (Val.str "2.341") (by decide)⟩

/-! Section: C10: the null sentinel of the comparison-string normalizer -/

/-- C10 (code bug): `normalize_string` maps `None` to the lower-case
literal `"null"` before the upper-casing step, while the textual string
`"null"` is upper-cased to `"NULL"`; the two normal forms differ, so the
comparator judges a null against the textual string `"null"` unequal,
contrary to the stated purpose of comparing them consistently. -/
theorem normalize_string_null_case_mismatch :
    normalize_string Val.null = "null"
    ∧ normalize_string (Val.str "null") = "NULL"
    ∧ compare_values "incoterm" Val.null (Val.str "null") = false := by
  refine ⟨rfl, by decide, by decide⟩

/-! Section: C1: totality of the normalizers and the assembler -/

/-- Values within the annotated domain `Optional[str]` of the
normalizers: absent or a string. -/
def strOrNull : Val → Bool
  | .null => true
  | .str _ => true
  | _ => false

/-- C1 counterexample: a draft with a truthy non-string incoterm (the
number 5) makes `val.strip()` in `normalize_incoterm` raise
`AttributeError`, which propagates out of the normalizer and out of the
assembler — the claim's universal no-exception guarantee over arbitrary
field values fails. -/
theorem normalize_incoterm_nonstring_cex :
    normalize_incoterm (Val.num (PyFloat.finite 5)) = .error .attributeError
    ∧ process_email (Val.str "e1")
        ⟨Val.null, Val.null, Val.null, Val.num (PyFloat.finite 5), Val.null, Val.null, Val.null⟩
        "x" [] = .error .attributeError :=
  ⟨rfl, rfl⟩

theorem validate_code_ok_strOrNull (pmap : List (String × String)) (v : Val)
    (h : strOrNull v = true) :
    ∃ out, validate_code pmap v = .ok out ∧ strOrNull out = true := by
  cases v with
  | null => exact ⟨.null, rfl, rfl⟩
  | bool b => simp [strOrNull] at h
  | num f => simp [strOrNull] at h
  | str s =>
      by_cases hs : s = ""
      · subst hs
        exact ⟨.str "", rfl, rfl⟩
      · have ht : Val.truthy (.str s) = true := by simp [Val.truthy, hs]
        cases hl : (alookup pmap (pyUpper s)).isSome with
        | true => exact ⟨.str (pyUpper s), by simp [validate_code, ht, hl], rfl⟩
        | false => exact ⟨.null, by simp [validate_code, ht, hl], rfl⟩

theorem normalize_incoterm_ok_strOrNull (v : Val) (h : strOrNull v = true) :
    ∃ u, normalize_incoterm v = .ok u := by
  cases v with
  | null => exact ⟨"FOB", rfl⟩
  | bool b => simp [strOrNull] at h
  | num f => simp [strOrNull] at h
  | str s =>
      by_cases hs : s = ""
      · subst hs
        exact ⟨"FOB", rfl⟩
      · have ht : Val.truthy (.str s) = true := by simp [Val.truthy, hs]
        by_cases hin : pyUpper (pyStrip s) ∈ valid_incoterms
        · exact ⟨pyUpper (pyStrip s), by simp [normalize_incoterm, ht, hin]⟩
        · exact ⟨"FOB", by simp [normalize_incoterm, ht, hin]⟩

theorem validate_opt_str_ok_strOrNull (v : Val) (h : strOrNull v = true) :
    ∃ o, validate_opt_str v = .ok o := by
  cases v with
  | null => exact ⟨none, rfl⟩
  | str s => exact ⟨some s, rfl⟩
  | bool b => simp [strOrNull] at h
  | num f => simp [strOrNull] at h

theorem draft_product_line_strOrNull (d : RawDraft) (oc dc : Val)
    (h : strOrNull d.product_line = true) :
    strOrNull (draft_product_line d oc dc) = true := by
  unfold draft_product_line
  cases determine_product_line (toOptStr oc) (toOptStr dc) with
  | some s => rfl
  | none =>
      by_cases ht : d.product_line.truthy = true
      · simp [ht, h]
      · simp [ht, strOrNull]

/-- C1 (amended): the no-exception guarantee holds on the annotated
domain of the draft — whenever the draft's `product_line`, port codes
and incoterm are each a string or absent (the cargo fields and the
dangerous-goods hint stay arbitrary) and the email id is a string, the
assembler (and hence each normalizer it runs) returns a record without
raising. -/
theorem assembler_total_on_typed_drafts (email_id : String) (d : RawDraft) (t : String)
    (pmap : List (String × String))
    (hpl : strOrNull d.product_line = true)
    (hoc : strOrNull d.origin_port_code = true)
    (hdc : strOrNull d.destination_port_code = true)
    (hit : strOrNull d.incoterm = true) :
    ∃ r, process_email (Val.str email_id) d t pmap = .ok r := by
  obtain ⟨oc, hvoc, hoc2⟩ := validate_code_ok_strOrNull pmap _ hoc
  obtain ⟨dc, hvdc, hdc2⟩ := validate_code_ok_strOrNull pmap _ hdc
  obtain ⟨it, hvit⟩ := normalize_incoterm_ok_strOrNull _ hit
  obtain ⟨plv, hvpl⟩ := validate_opt_str_ok_strOrNull _ (draft_product_line_strOrNull d oc dc hpl)
  obtain ⟨ocv, hvocv⟩ := validate_opt_str_ok_strOrNull _ hoc2
  obtain ⟨dcv, hvdcv⟩ := validate_opt_str_ok_strOrNull _ hdc2
  unfold process_email
  simp only [hvoc, hvdc, hvit, validate_str, hvpl, hvocv, hvdcv]
  exact ⟨_, rfl⟩

theorem assembler_total_on_typed_drafts_witness :
    strOrNull emptyDraft.product_line = true
    ∧ strOrNull emptyDraft.origin_port_code = true
    ∧ strOrNull emptyDraft.destination_port_code = true
    ∧ strOrNull emptyDraft.incoterm = true
    ∧ ∃ r, process_email (Val.str "e1") emptyDraft "x" [] = .ok r :=
  ⟨rfl, rfl, rfl, rfl,
   assembler_total_on_typed_drafts "e1" emptyDraft "x" [] rfl rfl rfl rfl⟩

/-! Section: Inversion of a successful assembly -/

theorem process_email_ok_inv (email_id : Val) (d : RawDraft) (t : String)
    (pmap : List (String × String)) (r : ShipmentRecord)
    (hok : process_email email_id d t pmap = .ok r) :
    ∃ oc dc it idv plv ocv dcv,
      validate_code pmap d.origin_port_code = .ok oc
      ∧ validate_code pmap d.destination_port_code = .ok dc
      ∧ normalize_incoterm d.incoterm = .ok it
      ∧ validate_str email_id = .ok idv
      ∧ validate_opt_str (draft_product_line d oc dc) = .ok plv
      ∧ validate_opt_str oc = .ok ocv
      ∧ validate_opt_str dc = .ok dcv
      ∧ r = { id := idv, product_line := plv,
              origin_port_code := ocv, origin_port_name := port_name pmap oc,
              destination_port_code := dcv, destination_port_name := port_name pmap dc,
              incoterm := it, cargo_weight_kg := round_metric d.cargo_weight_kg,
              cargo_cbm := round_metric d.cargo_cbm,
              is_dangerous := check_dangerous_goods t d.is_dangerous } := by
  unfold process_email at hok
  cases hvoc : validate_code pmap d.origin_port_code with
  | error e => rw [hvoc] at hok; exact absurd hok (by simp)
  | ok oc =>
  rw [hvoc] at hok
  cases hvdc : validate_code pmap d.destination_port_code with
  | error e => rw [hvdc] at hok; exact absurd hok (by simp)
  | ok dc =>
  rw [hvdc] at hok
  simp only at hok
  cases hvit : normalize_incoterm d.incoterm with
  | error e => rw [hvit] at hok; exact absurd hok (by simp)
  | ok it =>
  rw [hvit] at hok
  simp only at hok
  cases hvid : validate_str email_id with
  | error e => rw [hvid] at hok; exact absurd hok (by simp)
  | ok idv =>
  rw [hvid] at hok
  simp only at hok
  cases hvpl : validate_opt_str (draft_product_line d oc dc) with
  | error e => rw [hvpl] at hok; exact absurd hok (by simp)
  | ok plv =>
  rw [hvpl] at hok
  simp only at hok
  cases hvocv : validate_opt_str oc with
  | error e => rw [hvocv] at hok; exact absurd hok (by simp)
  | ok ocv =>
  rw [hvocv] at hok
  simp only at hok
  cases hvdcv : validate_opt_str dc with
  | error e => rw [hvdcv] at hok; exact absurd hok (by simp)
  | ok dcv =>
  rw [hvdcv] at hok
  simp only at hok
  injection hok with h
  exact ⟨oc, dc, it, idv, plv, ocv, dcv, rfl, rfl, rfl, rfl, hvpl, hvocv, hvdcv, h.symm⟩

/-! Section: C2: the port code/name invariant of the assembler -/

theorem pyUpper_ne_empty (s : String) (h : s ≠ "") : pyUpper s ≠ "" := by
  obtain ⟨cs⟩ := s
  cases cs with
  | nil => exact absurd rfl h
  | cons c rest =>
      intro heq
      have h2 := congrArg String.data heq
      simp [pyUpper] at h2

theorem code_name_side (pmap : List (String × String)) (v oc : Val) (ocv : Option String)
    (hempty : alookup pmap "" = none)
    (hvc : validate_code pmap v = .ok oc)
    (hvo : validate_opt_str oc = .ok ocv) :
    (port_name pmap oc ≠ none ↔ ∃ c, ocv = some c ∧ alookup pmap c ≠ none)
    ∧ ∀ s, v = Val.str s → s ≠ "" → alookup pmap (pyUpper s) = none →
        ocv = none ∧ port_name pmap oc = none := by
  cases v with
  | null =>
      have h1 : oc = Val.null := by
        simp [validate_code, Val.truthy] at hvc
        exact hvc.symm
      subst h1
      have h2 : ocv = none := by
        simp [validate_opt_str] at hvo
        exact hvo.symm
      subst h2
      constructor
      · simp [port_name, Val.truthy]
      · intro s hs
        exact absurd hs (by simp)
  | bool b =>
      cases b with
      | true => simp [validate_code, Val.truthy] at hvc
      | false =>
          simp [validate_code, Val.truthy] at hvc
          subst hvc
          simp [validate_opt_str] at hvo
  | num f =>
      by_cases ht : (Val.num f).truthy = true
      · simp [validate_code, ht] at hvc
      · simp [validate_code, ht] at hvc
        subst hvc
        simp [validate_opt_str] at hvo
  | str s =>
      by_cases hs : s = ""
      · subst hs
        have h1 : oc = Val.str "" := by
          simp [validate_code, Val.truthy] at hvc
          exact hvc.symm
        subst h1
        have h2 : ocv = some "" := by
          simp [validate_opt_str] at hvo
          exact hvo.symm
        subst h2
        have hpn : port_name pmap (Val.str "") = none := by
          simp [port_name, Val.truthy]
        constructor
        · simp [hpn, hempty]
        · intro s' hs' hne _
          injection hs' with h
          exact absurd h.symm hne
      · have ht : Val.truthy (Val.str s) = true := by simp [Val.truthy, hs]
        cases hl : alookup pmap (pyUpper s) with
        | none =>
            have h1 : oc = Val.null := by
              simp [validate_code, ht, hl] at hvc
              exact hvc.symm
            subst h1
            have h2 : ocv = none := by
              simp [validate_opt_str] at hvo
              exact hvo.symm
            subst h2
            constructor
            · simp [port_name, Val.truthy]
            · intro s' _ _ _
              exact ⟨rfl, by simp [port_name, Val.truthy]⟩
        | some nm =>
            have h1 : oc = Val.str (pyUpper s) := by
              simp [validate_code, ht, hl] at hvc
              exact hvc.symm
            subst h1
            have h2 : ocv = some (pyUpper s) := by
              simp [validate_opt_str] at hvo
              exact hvo.symm
            subst h2
            have hu : pyUpper s ≠ "" := pyUpper_ne_empty s hs
            have hpn : port_name pmap (Val.str (pyUpper s)) = some nm := by
              simp [port_name, Val.truthy, hu, hl]
            constructor
            · rw [hpn]
              constructor
              · intro _
                exact ⟨pyUpper s, rfl, by rw [hl]; simp⟩
              · intro _
                simp
            · intro s' hs' _ hlk
              injection hs' with h
              subst h
              rw [hl] at hlk
              exact absurd hlk (by simp)

/-- C2 (amended): whenever assembly succeeds and the reference map has
no empty-string key (the resolver never produces one), a port name is
present in the record iff the corresponding code is present and is a key
of the reference map; and any *non-empty* draft code whose upper-cased
form is absent from the map is emitted with both code and name null.
(The original claim, quantified over all drafts, fails for the falsy
empty-string draft code, which bypasses validation and is emitted
verbatim with a null name — see the counterexample.) -/
theorem port_code_name_invariant (email_id : Val) (d : RawDraft) (t : String)
    (pmap : List (String × String)) (r : ShipmentRecord)
    (hempty : alookup pmap "" = none)
    (hok : process_email email_id d t pmap = .ok r) :
    ((r.origin_port_name ≠ none ↔ ∃ c, r.origin_port_code = some c ∧ alookup pmap c ≠ none)
     ∧ (r.destination_port_name ≠ none ↔
          ∃ c, r.destination_port_code = some c ∧ alookup pmap c ≠ none))
    ∧ ((∀ s, d.origin_port_code = Val.str s → s ≠ "" → alookup pmap (pyUpper s) = none →
          r.origin_port_code = none ∧ r.origin_port_name = none)
       ∧ (∀ s, d.destination_port_code = Val.str s → s ≠ "" → alookup pmap (pyUpper s) = none →
          r.destination_port_code = none ∧ r.destination_port_name = none)) := by
  obtain ⟨oc, dc, it, idv, plv, ocv, dcv, hvoc, hvdc, hvit, hvid, hvpl, hvocv, hvdcv, hr⟩ :=
    process_email_ok_inv email_id d t pmap r hok
  subst hr
  obtain ⟨ho1, ho2⟩ := code_name_side pmap d.origin_port_code oc ocv hempty hvoc hvocv
  obtain ⟨hd1, hd2⟩ := code_name_side pmap d.destination_port_code dc dcv hempty hvdc hvdcv
  exact ⟨⟨ho1, hd1⟩, ⟨ho2, hd2⟩⟩

/-- C2 counterexample: a draft whose origin code is the empty string is
falsy, so it bypasses both the uppercase step and the reference check;
although `""` (upper-cased `""`) is absent from the (empty) reference
map, the emitted record carries `origin_port_code = ""` — not null —
with a null name, contradicting the claim that any draft code absent
from the map is nulled together with its name. -/
theorem empty_code_passthrough_cex :
    (process_email (Val.str "e1")
        ⟨Val.null, Val.str "", Val.null, Val.null, Val.null, Val.null, Val.null⟩
        "x" []).map (fun r => (r.origin_port_code, r.origin_port_name))
      = .ok (some "", none)
    ∧ alookup ([] : List (String × String)) (pyUpper "") = none :=
  ⟨rfl, rfl⟩

/-- Concrete reference map for the C2 witness. -/
def c2_pmap : List (String × String) := [("INMAA", "Chennai ICD")]

/-- Concrete draft for the C2 witness: origin resolves via uppercasing,
destination is unknown and must be nulled. -/
def c2_draft : RawDraft :=
  ⟨Val.null, Val.str "inmaa", Val.str "zzzzz", Val.null, Val.null, Val.null, Val.null⟩

/-- The record the assembler produces from `c2_draft`. -/
def c2_record : ShipmentRecord :=
  { id := "e1", product_line := some "pl_sea_export_lcl",
    origin_port_code := some "INMAA", origin_port_name := some "Chennai ICD",
    destination_port_code := none, destination_port_name := none,
    incoterm := "FOB", cargo_weight_kg := none, cargo_cbm := none,
    is_dangerous := false }

theorem port_code_name_invariant_witness :
    ((c2_record.origin_port_name ≠ none ↔
        ∃ c, c2_record.origin_port_code = some c ∧ alookup c2_pmap c ≠ none)
     ∧ (c2_record.destination_port_name ≠ none ↔
          ∃ c, c2_record.destination_port_code = some c ∧ alookup c2_pmap c ≠ none))
    ∧ ((∀ s, c2_draft.origin_port_code = Val.str s → s ≠ "" →
          alookup c2_pmap (pyUpper s) = none →
          c2_record.origin_port_code = none ∧ c2_record.origin_port_name = none)
       ∧ (∀ s, c2_draft.destination_port_code = Val.str s → s ≠ "" →
          alookup c2_pmap (pyUpper s) = none →
          c2_record.destination_port_code = none ∧ c2_record.destination_port_name = none)) :=
  port_code_name_invariant (Val.str "e1") c2_draft "x" c2_pmap c2_record rfl rfl

/-! Section: C7: verbatim product-line fallback -/

/-- C7 counterexample: a draft whose `product_line` is the empty string
(falsy) is not taken verbatim when the code-prefix derivation yields
nothing — the emitted record's product line is null, not `""`. -/
theorem product_line_empty_fallback_cex :
    (RawDraft.mk (Val.str "") Val.null Val.null Val.null Val.null Val.null Val.null).product_line
      = Val.str ""
    ∧ (process_email (Val.str "e1")
        (RawDraft.mk (Val.str "") Val.null Val.null Val.null Val.null Val.null Val.null)
        "x" []).map ShipmentRecord.product_line = .ok none :=
  ⟨rfl, rfl⟩

/-- C7 (amended): whenever assembly succeeds, the derivation over the
validated codes yields nothing, and the draft's own `product_line` is a
*truthy* (non-empty) string, the final record carries that draft value
verbatim — including values outside the two canonical enum values.
(The original claim fails for the falsy empty-string draft value, which
is replaced by null — see the counterexample; a truthy non-string draft
value instead fails the record validation, so assembly does not
succeed.) -/
theorem product_line_verbatim_fallback (email_id : Val) (d : RawDraft) (t : String)
    (pmap : List (String × String)) (oc dc : Val) (s : String) (r : ShipmentRecord)
    (hvoc : validate_code pmap d.origin_port_code = .ok oc)
    (hvdc : validate_code pmap d.destination_port_code = .ok dc)
    (hnone : determine_product_line (toOptStr oc) (toOptStr dc) = none)
    (hP : d.product_line = Val.str s) (hs : s ≠ "")
    (hok : process_email email_id d t pmap = .ok r) :
    r.product_line = some s := by
  obtain ⟨oc', dc', it, idv, plv, ocv, dcv, hvoc', hvdc', hvit, hvid, hvpl, hvocv, hvdcv, hr⟩ :=
    process_email_ok_inv email_id d t pmap r hok
  rw [hvoc] at hvoc'
  injection hvoc' with h1
  subst h1
  rw [hvdc] at hvdc'
  injection hvdc' with h2
  subst h2
  have hdp : draft_product_line d oc dc = Val.str s := by
    unfold draft_product_line
    rw [hnone, hP]
    have ht : Val.truthy (Val.str s) = true := by simp [Val.truthy, hs]
    simp [ht]
  rw [hdp] at hvpl
  simp [validate_opt_str] at hvpl
  subst hr
  exact hvpl.symm

/-- Concrete draft for the C7 witness: no ports, a non-canonical truthy
product line supplied by the oracle. -/
def c7_draft : RawDraft :=
  ⟨Val.str "pl_made_up", Val.null, Val.null, Val.null, Val.null, Val.null, Val.null⟩

/-- The record the assembler produces from `c7_draft`. -/
def c7_record : ShipmentRecord :=
  { id := "e1", product_line := some "pl_made_up",
    origin_port_code := none, origin_port_name := none,
    destination_port_code := none, destination_port_name := none,
    incoterm := "FOB", cargo_weight_kg := none, cargo_cbm := none,
    is_dangerous := false }

theorem product_line_verbatim_fallback_witness :
    c7_record.product_line = some "pl_made_up" :=
  product_line_verbatim_fallback (Val.str "e1") c7_draft "x" [] Val.null Val.null
    "pl_made_up" c7_record rfl rfl rfl rfl (by decide) rfl

/-! Section: C3: the port reference builder -/

/-- Specification-side recomputation: the names of the surviving entries
(both fields present and non-empty) carrying the given code, in file
order.  This bypasses the grouped `temp_map` entirely and is compared
against the built mapping in the theorem below. -/
def survNames (entries : List PortEntry) (code : String) : List String :=
  entries.filterMap (fun e =>
    match entryOk e with
    | some (c, n) => if c = code then some n else none
    | none => none)

theorem alookup_addName (tm : List (String × List String)) (c n code : String) :
    alookup (addName tm c n) code =
      if c = code then some ((alookup tm code).getD [] ++ [n]) else alookup tm code := by
  induction tm with
  | nil =>
      by_cases h : c = code
      · simp [addName, alookup, h]
      · simp [addName, alookup, h]
  | cons p rest ih =>
      obtain ⟨c', ns⟩ := p
      by_cases h1 : c' = c
      · subst h1
        by_cases h2 : c' = code
        · subst h2
          simp [addName, alookup]
        · simp [addName, alookup, h2]
      · by_cases h2 : c' = code
        · subst h2
          have hcc : ¬c = c' := fun hh => h1 hh.symm
          simp [addName, alookup, h1, hcc]
        · simp [addName, alookup, h1, h2, ih]

theorem foldl_temp_step_lookup (entries : List PortEntry) (tm : List (String × List String))
    (code : String) :
    alookup (entries.foldl temp_step tm) code =
      match survNames entries code with
      | [] => alookup tm code
      | ns => some ((alookup tm code).getD [] ++ ns) := by
  induction entries generalizing tm with
  | nil => simp [survNames]
  | cons e rest ih =>
      rw [List.foldl_cons]
      cases he : entryOk e with
      | none =>
          have hstep : temp_step tm e = tm := by simp [temp_step, he]
          have hsurv : survNames (e :: rest) code = survNames rest code := by
            simp [survNames, List.filterMap_cons, he]
          rw [hstep, hsurv, ih]
      | some p =>
          obtain ⟨c, n⟩ := p
          have hstep : temp_step tm e = addName tm c n := by simp [temp_step, he]
          rw [hstep, ih]
          by_cases hc : c = code
          · subst hc
            have hsurv : survNames (e :: rest) c = n :: survNames rest c := by
              simp [survNames, List.filterMap_cons, he]
            rw [hsurv, alookup_addName]
            simp only [if_pos rfl]
            cases survNames rest c with
            | nil => simp
            | cons x xs => simp
          · have hsurv : survNames (e :: rest) code = survNames rest code := by
              simp [survNames, List.filterMap_cons, he, hc]
            rw [hsurv, alookup_addName, if_neg hc]

theorem alookup_map_select (tm : List (String × List String)) (code : String) :
    alookup (tm.map (fun p => (p.1, select_name p.1 p.2))) code =
      (alookup tm code).map (select_name code) := by
  induction tm with
  | nil => rfl
  | cons p rest ih =>
      obtain ⟨c, ns⟩ := p
      by_cases h : c = code
      · subst h
        simp [alookup]
      · simp [alookup, h, ih]

/-- C3 (amended): the built reference maps a code to nothing when no
entry with truthy (present and non-empty) code and name carries it, and
otherwise to the selection policy applied to that code's surviving
names in file order: the first name, except for the known-corrupt code
`INMAA`, where the first name containing `Chennai` and not `Bangalore`
is preferred, falling back to the first name.  (The original claim,
which only excepts entries with *missing* fields, fails on an entry
with a present-but-empty code or name: the code skips every falsy
field, not just absent ones — see the counterexample.) -/
theorem port_reference_selection_policy (entries : List PortEntry) (code : String) :
    alookup (load_port_reference entries) code =
      match survNames entries code with
      | [] => none
      | ns => some (select_name code ns) := by
  unfold load_port_reference buildTemp
  rw [alookup_map_select, foldl_temp_step_lookup]
  cases survNames entries code with
  | nil => simp [alookup]
  | cons x xs => simp [alookup]

/-- C3 counterexample: an entry whose code is present but empty (`""`)
is skipped by the truthiness filter even though neither field is
missing; the claim as stated would map `""` to `"X"`. -/
theorem empty_code_entry_skipped_cex :
    (PortEntry.mk (some "") (some "X")).code = some ""
    ∧ (PortEntry.mk (some "") (some "X")).name = some "X"
    ∧ load_port_reference [PortEntry.mk (some "") (some "X")] = [] :=
  ⟨rfl, rfl, rfl⟩

/-! Section: C9: the accuracy comparator -/

/-- Canonical numeric field values: absent or a finite float. -/
def finiteOrNoneB : Option PyFloat → Bool
  | none => true
  | some (.finite _) => true
  | some _ => false

/-- Comparator operands in the canonical numeric domain: null, or a
value whose `float(...)` conversion yields a finite float. -/
def nullOrFiniteB (v : Val) : Bool :=
  match v with
  | .null => true
  | v =>
      match py_float v with
      | .ok (.finite _) => true
      | _ => false

theorem nullOrFiniteB_elim (v : Val) (h : nullOrFiniteB v = true) :
    v = Val.null ∨ ∃ q, py_float v = .ok (.finite q) := by
  cases v with
  | null => exact Or.inl rfl
  | bool b => exact Or.inr ⟨(if b then 1 else 0), rfl⟩
  | num f =>
      cases f with
      | finite q => exact Or.inr ⟨q, rfl⟩
      | inf => simp [nullOrFiniteB, py_float] at h
      | ninf => simp [nullOrFiniteB, py_float] at h
      | nan => simp [nullOrFiniteB, py_float] at h
  | str s =>
      refine Or.inr ?_
      simp only [nullOrFiniteB] at h
      cases hp : py_float (Val.str s) with
      | error e => rw [hp] at h; simp at h
      | ok f =>
          cases f with
          | finite q => exact ⟨q, rfl⟩
          | inf => rw [hp] at h; simp at h
          | ninf => rw [hp] at h; simp at h
          | nan => rw [hp] at h; simp at h

theorem compare_floats_characterization (v1 v2 : Val)
    (h1 : nullOrFiniteB v1 = true) (h2 : nullOrFiniteB v2 = true) :
    (compare_floats v1 v2 = true ↔
      (v1 = Val.null ∧ v2 = Val.null)
      ∨ ∃ q1 q2, py_float v1 = .ok (.finite q1) ∧ py_float v2 = .ok (.finite q2)
          ∧ roundQ2 q1 = roundQ2 q2) := by
  rcases nullOrFiniteB_elim v1 h1 with rfl | ⟨q1, hq1⟩
  · rcases nullOrFiniteB_elim v2 h2 with rfl | ⟨q2, hq2⟩
    · exact ⟨fun _ => Or.inl ⟨rfl, rfl⟩, fun _ => rfl⟩
    · have hv2 : v2 ≠ Val.null := by rintro rfl; simp [py_float] at hq2
      have hcf : compare_floats Val.null v2 = false := by
        cases v2 with
        | null => exact absurd rfl hv2
        | bool b => rfl
        | num f => rfl
        | str s => rfl
      rw [hcf]
      simp only [Bool.false_eq_true, false_iff]
      rintro (⟨_, h⟩ | ⟨q1', q2', hp1', _, _⟩)
      · exact hv2 h
      · simp [py_float] at hp1'
  · have hv1 : v1 ≠ Val.null := by rintro rfl; simp [py_float] at hq1
    rcases nullOrFiniteB_elim v2 h2 with rfl | ⟨q2, hq2⟩
    · have hcf : compare_floats v1 Val.null = false := by
        cases v1 with
        | null => exact absurd rfl hv1
        | bool b => rfl
        | num f => rfl
        | str s => rfl
      rw [hcf]
      simp only [Bool.false_eq_true, false_iff]
      rintro (⟨h, _⟩ | ⟨q1', q2', _, hp2', _⟩)
      · exact hv1 h
      · simp [py_float] at hp2'
    · have hv2 : v2 ≠ Val.null := by rintro rfl; simp [py_float] at hq2
      have hcf : compare_floats v1 v2 =
          pyFloatEq (pyRound2 (.finite q1)) (pyRound2 (.finite q2)) := by
        cases v1 with
        | null => exact absurd rfl hv1
        | bool b =>
            cases v2 with
            | null => exact absurd rfl hv2
            | bool c => simp [compare_floats, hq1, hq2]
            | num f => simp [compare_floats, hq1, hq2]
            | str s => simp [compare_floats, hq1, hq2]
        | num f =>
            cases v2 with
            | null => exact absurd rfl hv2
            | bool c => simp [compare_floats, hq1, hq2]
            | num g => simp [compare_floats, hq1, hq2]
            | str s => simp [compare_floats, hq1, hq2]
        | str s =>
            cases v2 with
            | null => exact absurd rfl hv2
            | bool c => simp [compare_floats, hq1, hq2]
            | num g => simp [compare_floats, hq1, hq2]
            | str s2 => simp [compare_floats, hq1, hq2]
      rw [hcf]
      simp only [pyRound2, pyFloatEq, decide_eq_true_eq]
      constructor
      · intro heq
        exact Or.inr ⟨q1, q2, hq1, hq2, heq⟩
      · rintro (⟨h, _⟩ | ⟨q1', q2', hp1', hp2', heq⟩)
        · exact absurd h hv1
        · rw [hq1] at hp1'
          rw [hq2] at hp2'
          injection hp1' with hx1
          injection hx1 with hy1
          injection hp2' with hx2
          injection hx2 with hy2
          rw [hy1, hy2]
          exact heq

theorem compare_floats_self_opt (o : Option PyFloat) (h : finiteOrNoneB o = true) :
    compare_floats (optFloatVal o) (optFloatVal o) = true := by
  cases o with
  | none => rfl
  | some f =>
      cases f with
      | finite q => simp [optFloatVal, compare_floats, py_float, pyRound2, pyFloatEq]
      | inf => simp [finiteOrNoneB] at h
      | ninf => simp [finiteOrNoneB] at h
      | nan => simp [finiteOrNoneB] at h

theorem compare_values_self_any (f : String) (v : Val)
    (hv : (f = "cargo_weight_kg" ∨ f = "cargo_cbm") → compare_floats v v = true) :
    compare_values f v v = true := by
  by_cases h : f = "cargo_weight_kg" ∨ f = "cargo_cbm"
  · simp [compare_values, h, hv h]
  · simp [compare_values, h]

theorem count_fields_self (r : ShipmentRecord)
    (hw : finiteOrNoneB r.cargo_weight_kg = true) (hc : finiteOrNoneB r.cargo_cbm = true) :
    count_fields r r (0, 0) = (9, 9) := by
  have hgw : get_field r "cargo_weight_kg" = optFloatVal r.cargo_weight_kg := by
    simp [get_field]
  have hgc : get_field r "cargo_cbm" = optFloatVal r.cargo_cbm := by
    simp [get_field]
  have hstep : ∀ f, f = "cargo_weight_kg" ∨ f = "cargo_cbm" →
      compare_floats (get_field r f) (get_field r f) = true := by
    rintro f (rfl | rfl)
    · rw [hgw]; exact compare_floats_self_opt _ hw
    · rw [hgc]; exact compare_floats_self_opt _ hc
  unfold count_fields fields_to_evaluate
  simp only [List.foldl_cons, List.foldl_nil]
  rw [if_pos (compare_values_self_any _ _ (hstep _)),
      if_pos (compare_values_self_any _ _ (hstep _)),
      if_pos (compare_values_self_any _ _ (hstep _)),
      if_pos (compare_values_self_any _ _ (hstep _)),
      if_pos (compare_values_self_any _ _ (hstep _)),
      if_pos (compare_values_self_any _ _ (hstep _)),
      if_pos (compare_values_self_any _ _ (hstep _)),
      if_pos (compare_values_self_any _ _ (hstep _)),
      if_pos (compare_values_self_any _ _ (hstep _))]

/-- C9: comparing a canonical record (numeric fields finite or absent)
against an identical copy over the fixed field list yields 100% overall
accuracy; on the canonical numeric domain two values are judged equal
exactly when both are null or both parse to finite numbers with the
same 2-decimal rounding; in particular `500.001` equals `500.0`, and a
present `origin_port_code` compared against null is judged unequal. -/
theorem comparator_self_accuracy_and_float_eq :
    (∀ r : ShipmentRecord, finiteOrNoneB r.cargo_weight_kg = true →
        finiteOrNoneB r.cargo_cbm = true →
        overall_accuracy (evaluate_accuracy [r] [r]) = 100)
    ∧ (∀ v1 v2 : Val, nullOrFiniteB v1 = true → nullOrFiniteB v2 = true →
        (compare_floats v1 v2 = true ↔
          (v1 = Val.null ∧ v2 = Val.null)
          ∨ ∃ q1 q2, py_float v1 = .ok (.finite q1) ∧ py_float v2 = .ok (.finite q2)
              ∧ roundQ2 q1 = roundQ2 q2))
    ∧ compare_values "cargo_weight_kg"
        (Val.num (PyFloat.finite (500001 / 1000))) (Val.num (PyFloat.finite 500)) = true
    ∧ compare_values "origin_port_code" (Val.str "INMAA") Val.null = false := by
  refine ⟨?_, compare_floats_characterization, ?_, by decide⟩
  · intro r hw hc
    have hb : build_by_id [r] = [(r.id, r)] := rfl
    have hl : alookup [(r.id, r)] r.id = some r := by simp [alookup]
    simp only [evaluate_accuracy, hb, List.foldl_cons, List.foldl_nil, hl]
    rw [count_fields_self r hw hc]
    norm_num [overall_accuracy]
  · have h1 : roundQ2 (500001 / 1000) = 500 := by
      unfold roundQ2
      rw [roundZ_eq_round, round_eq]
      norm_num
    have h2 : roundQ2 500 = 500 := by
      unfold roundQ2
      rw [roundZ_eq_round, round_eq]
      norm_num
    simp [compare_values, compare_floats, py_float, pyRound2, pyFloatEq, h1, h2]

/-- Concrete canonical record for the C9 witness. -/
def c9_record : ShipmentRecord :=
  { id := "g1", product_line := some "pl_sea_import_lcl",
    origin_port_code := some "HKHKG", origin_port_name := some "Hong Kong",
    destination_port_code := some "INMAA", destination_port_name := some "Chennai ICD",
    incoterm := "FOB", cargo_weight_kg := some (PyFloat.finite 500), cargo_cbm := none,
    is_dangerous := false }

theorem comparator_self_accuracy_and_float_eq_witness :
    overall_accuracy (evaluate_accuracy [c9_record] [c9_record]) = 100
    ∧ (compare_floats (Val.num (PyFloat.finite 1)) Val.null = true ↔
        ((Val.num (PyFloat.finite 1) = Val.null ∧ Val.null = Val.null)
         ∨ ∃ q1 q2, py_float (Val.num (PyFloat.finite 1)) = .ok (.finite q1)
             ∧ py_float Val.null = .ok (.finite q2) ∧ roundQ2 q1 = roundQ2 q2)) :=
  ⟨comparator_self_accuracy_and_float_eq.1 c9_record (by decide) (by decide),
   comparator_self_accuracy_and_float_eq.2.1 (Val.num (PyFloat.finite 1)) Val.null
     (by decide) (by decide)⟩
